import Mathlib

/-!
Shallow embedding of the gemcp MCP server (src/src/index.ts and the utils
module src/unnamed/part_000).  Strings are modelled as `List Char`; the
JavaScript string operations used by the source (trim, startsWith, endsWith,
slice, replace with the two anchored regexes, split, template literals) are
embedded as executable functions on `List Char`.
-/

namespace Gemcp

/-- Strings of the embedded program: JavaScript strings as lists of characters. -/
abbrev Str := List Char

/-- Whitespace recognised by JavaScript `String.prototype.trim` (ASCII part;
the Unicode space characters, which the repository never produces, are omitted). -/
def isWsChar (c : Char) : Bool :=
  c = ' ' || c = '\t' || c = '\n' || c = '\r' || c = '\x0b' || c = '\x0c'

/-- JavaScript `s.trim()`: drop whitespace from both ends. -/
def jsTrim (s : Str) : Str :=
  List.rdropWhile isWsChar (s.dropWhile isWsChar)

/-- JavaScript `a || d` for an optional string `a`: the default is used when
`a` is `undefined` or the (falsy) empty string. -/
def jsOrStr (a : Option Str) (d : Str) : Str :=
  match a with
  | none => d
  | some s => if s = [] then d else s

/-- JavaScript `a || b` where both sides are optional strings
(`options.instructions || systemMessage?.content`). -/
def jsOrOpt (a : Option Str) (b : Option Str) : Option Str :=
  match a with
  | none => b
  | some s => if s = [] then b else some s

/-- The decimal digit characters used by JavaScript number-to-string coercion. -/
def digitChar (d : Nat) : Char :=
  if d = 0 then '0' else if d = 1 then '1' else if d = 2 then '2'
  else if d = 3 then '3' else if d = 4 then '4' else if d = 5 then '5'
  else if d = 6 then '6' else if d = 7 then '7' else if d = 8 then '8' else '9'

/-- Fuelled helper for `decRepr` (the fuel always suffices, as the argument
shrinks by a factor of ten at every step). -/
def decReprAux : Nat → Nat → Str
  | 0, _ => []
  | f + 1, n =>
    if n < 10 then [digitChar n]
    else decReprAux f (n / 10) ++ [digitChar (n % 10)]

/-- Decimal representation of a natural number, as produced by the template
literal interpolation of a JavaScript integer. -/
def decRepr (n : Nat) : Str := decReprAux (n + 1) n

/-- Numeric value of a decimal digit character. -/
def digitVal (c : Char) : Nat := c.toNat - 48

/-- Read back a decimal digit string (left inverse of `decRepr`). -/
def decDecode (l : Str) : Nat := l.foldl (fun a c => 10 * a + digitVal c) 0

/-- Split a string at its last dot: `some (before, after)` with
`p = before ++ '.' :: after` and no dot in `after`; `none` when `p` has no dot. -/
def splitAtLastDot : Str → Option (Str × Str)
  | [] => none
  | c :: rest =>
    match splitAtLastDot rest with
    | some (a, b) => some (c :: a, b)
    | none => if c = '.' then some ([], rest) else none

/-- JavaScript `p.replace(/\.[^.]+$/, '')`: remove a trailing dot-extension
(the match requires at least one non-dot character after the last dot). -/
def stripExt (p : Str) : Str :=
  match splitAtLastDot p with
  | some (a, b) => if b = [] then p else a
  | none => p

/-- JavaScript `p.replace(/(\.[^.]+)$/, suf + '$1')`: insert `suf` before a
trailing dot-extension, leaving `p` unchanged when there is none. -/
def insertBeforeExt (suf : Str) (p : Str) : Str :=
  match splitAtLastDot p with
  | some (a, b) => if b = [] then p else a ++ suf ++ '.' :: b
  | none => p

/-- Extension chosen from an asset's declared mime type
(`img.mimeType === 'image/png' ? '.png' : img.mimeType === 'image/webp' ? '.webp' : '.jpg'`). -/
def extFor (mime : Str) : Str :=
  if mime = "image/png".toList then ".png".toList
  else if mime = "image/webp".toList then ".webp".toList
  else ".jpg".toList

/-- Fence stripping applied to SVG output (`callGeminiSvg`, part_000 lines 382-388). -/
def stripFencesSvg (s : Str) : Str :=
  let t := jsTrim s
  let t1 := if List.isPrefixOf "```svg".toList t then t.drop 6
    else if List.isPrefixOf "```xml".toList t then t.drop 6
    else if List.isPrefixOf "```".toList t then t.drop 3
    else t
  let t2 := if List.isSuffixOf "```".toList t1 then t1.take (t1.length - 3) else t1
  jsTrim t2

/-- Fence stripping applied to segmentation output (`callGeminiSegment`,
part_000 lines 435-440). -/
def stripFencesJson (s : Str) : Str :=
  let t := jsTrim s
  let t1 := if List.isPrefixOf "```json".toList t then t.drop 7
    else if List.isPrefixOf "```".toList t then t.drop 3
    else t
  let t2 := if List.isSuffixOf "```".toList t1 then t1.take (t1.length - 3) else t1
  jsTrim t2

/-! ## Upstream response model (the `@google/genai` response shape read by the source) -/

/-- An inline-data response part (`part.inlineData`): optional mime type and
optional base64 payload. -/
structure InlineData where
  mimeType : Option Str
  data : Option Str

/-- A response part: optional text and optional inline data. -/
structure Part where
  text : Option Str
  inlineData : Option InlineData

/-- A candidate's content: an optional list of parts. -/
structure Content where
  parts : Option (List Part)

/-- A response candidate. -/
structure Candidate where
  content : Option Content

/-- `response.usageMetadata`: all counters optional. -/
structure UsageMetadata where
  promptTokenCount : Option Nat
  candidatesTokenCount : Option Nat
  totalTokenCount : Option Nat

/-- The upstream `generateContent` response as read by the source:
the candidate list, the top-level `response.text` accessor (never consulted
by the source), and the optional usage metadata. -/
structure GeminiResponse where
  candidates : List Candidate
  text : Option Str
  usageMetadata : Option UsageMetadata

/-- The optional chain `response.candidates?.[0]?.content?.parts`,
yielding `[]` when any link is absent (the loop body is then skipped). -/
def firstCandidateParts (r : GeminiResponse) : List Part :=
  match r.candidates.head? with
  | none => []
  | some c =>
    match c.content with
    | none => []
    | some ct => ct.parts.getD []

/-- The text-accumulation loop
`for (const part of parts) { if (part.text) content += part.text }`. -/
def extractText (parts : List Part) : Str :=
  parts.foldl
    (fun acc p =>
      match p.text with
      | some t => if t = [] then acc else acc ++ t
      | none => acc) []

/-- Usage counters copied through with `|| 0` defaults
(`response.usageMetadata ? {...} : undefined`). -/
structure Usage where
  promptTokens : Nat
  completionTokens : Nat
  totalTokens : Nat

/-- Build the result's usage record from the response. -/
def usageOf (r : GeminiResponse) : Option Usage :=
  match r.usageMetadata with
  | none => none
  | some u => some ⟨u.promptTokenCount.getD 0, u.candidatesTokenCount.getD 0,
      u.totalTokenCount.getD 0⟩

/-! ## Upstream call layer (part_000): text generation -/

/-- `GeminiOptions` of part_000 (the thinking fields are accepted but never
forwarded to the request, exactly as in the source). -/
structure GeminiOptions where
  model : Option Str
  instructions : Option Str
  thinkingLevel : Option Str
  includeThoughts : Option Bool
  maxTokens : Option ℚ
  temperature : Option ℚ
  topP : Option ℚ

/-- The generation config object sent upstream. -/
structure GenConfig where
  systemInstruction : Option Str
  maxOutputTokens : Option ℚ
  temperature : Option ℚ
  topP : Option ℚ

/-- Role of a request content entry (`'model'` or `'user'`). -/
inductive ReqRole where
  | user
  | model
deriving DecidableEq

/-- One entry of the `contents` array of a conversation request. -/
structure ReqContent where
  role : ReqRole
  parts : List Part

/-- `contents` is either a bare prompt string or an array of role-tagged
messages. -/
inductive GenContents where
  | prompt (s : Str)
  | msgs (l : List ReqContent)

/-- A `generateContent` request as built by the source. -/
structure GenRequest where
  model : Str
  contents : GenContents
  config : GenConfig

/-- Default text model identifier (`options.model || 'gemini-3-pro-preview'`). -/
def defaultTextModel : Str := "gemini-3-pro-preview".toList

/-- The request built by `callGemini` (part_000 lines 28-40). -/
def callGeminiReq (prompt : Str) (o : GeminiOptions) : GenRequest :=
  { model := jsOrStr o.model defaultTextModel
    contents := .prompt prompt
    config := ⟨o.instructions, o.maxTokens, o.temperature, o.topP⟩ }

/-- `GeminiResult` of part_000 (the `reasoning` field is declared optional and
never assigned by the source, so it is omitted here). -/
structure GeminiResult where
  content : Str
  usage : Option Usage

/-- Normalisation of a `generateContent` response into a `GeminiResult`
(part_000 lines 42-56). -/
def geminiResultOf (r : GeminiResponse) : GeminiResult :=
  ⟨extractText (firstCandidateParts r), usageOf r⟩

/-- `callGemini`, with the upstream API abstracted as a function from
requests to responses. -/
def callGemini (prompt : Str) (o : GeminiOptions)
    (up : GenRequest → GeminiResponse) : GeminiResult :=
  geminiResultOf (up (callGeminiReq prompt o))

/-- Role of an inbound conversation message. -/
inductive MsgRole where
  | user
  | assistant
  | system
deriving DecidableEq

/-- An inbound conversation message. -/
structure SrcMessage where
  role : MsgRole
  content : Str

/-- The request built by `callGeminiWithMessages` (part_000 lines 64-84):
the first system-role message is found, system messages are filtered out of
the content array, assistant maps to the `'model'` role, and the system
instruction is `options.instructions || systemMessage?.content`. -/
def callGeminiWithMessagesReq (messages : List SrcMessage) (o : GeminiOptions) :
    GenRequest :=
  let systemMessage := messages.find? (fun m => m.role = MsgRole.system)
  let chatMessages := (messages.filter (fun m => ¬ m.role = MsgRole.system)).map
    (fun m => ReqContent.mk
      (if m.role = MsgRole.assistant then ReqRole.model else ReqRole.user)
      [⟨some m.content, none⟩])
  { model := jsOrStr o.model defaultTextModel
    contents := .msgs chatMessages
    config := ⟨jsOrOpt o.instructions (systemMessage.map SrcMessage.content),
      o.maxTokens, o.temperature, o.topP⟩ }

/-- `callGeminiWithMessages`, upstream abstracted. -/
def callGeminiWithMessages (messages : List SrcMessage) (o : GeminiOptions)
    (up : GenRequest → GeminiResponse) : GeminiResult :=
  geminiResultOf (up (callGeminiWithMessagesReq messages o))

/-- Claim-side definition (spec wording): the in-order concatenation of all
text parts of a part list. -/
def specTextConcat (parts : List Part) : Str :=
  (parts.filterMap Part.text).foldr (· ++ ·) []

/-! ## Upstream call layer: image generation, upscale, edit -/

/-- An image asset of a normalised image result: mime type and base64 data. -/
structure ImgAsset where
  mimeType : Str
  data : Str
deriving DecidableEq

/-- `GeminiImageResult` of part_000. -/
structure GeminiImageResult where
  text : Option Str
  images : List ImgAsset
  usage : Option Usage

/-- The png mime constant used as default. -/
def pngMime : Str := "image/png".toList

/-- The asset pushed for an inline-data part:
`{ mimeType: part.inlineData.mimeType || 'image/png', data: part.inlineData.data || '' }`. -/
def assetOfInline (d : InlineData) : ImgAsset :=
  ⟨jsOrStr d.mimeType pngMime, jsOrStr d.data []⟩

/-- The response-normalisation loop of `callGeminiImage`
(part_000 lines 181-192): inline-data parts are pushed in order with
`mimeType || 'image/png'` and `data || ''`; otherwise a truthy text part
overwrites the single `text` variable. -/
def imageFold (parts : List Part) : Option Str × List ImgAsset :=
  parts.foldl
    (fun acc p =>
      match p.inlineData with
      | some d => (acc.1, acc.2 ++ [assetOfInline d])
      | none =>
        match p.text with
        | some t => if t = [] then acc else (some t, acc.2)
        | none => acc) (none, [])

/-- Normalisation of a `generateContent` response by `callGeminiImage`. -/
def callGeminiImageRes (r : GeminiResponse) : GeminiImageResult :=
  ⟨(imageFold (firstCandidateParts r)).1, (imageFold (firstCandidateParts r)).2,
    usageOf r⟩

/-- Claim-side definition (spec wording): one asset per inline-data part,
in order. -/
def specInlineAssets (parts : List Part) : List ImgAsset :=
  (parts.filterMap Part.inlineData).map assetOfInline

/-- The text contribution of a part in the image loop: `none` for inline-data
parts (the `else` branch is not reached) and for empty/absent text. -/
def imageTextOf (p : Part) : Option Str :=
  match p.inlineData with
  | some _ => none
  | none =>
    match p.text with
    | some t => if t = [] then none else some t
    | none => none

/-- The caption actually kept by the image loop: the last truthy text part
(each assignment overwrites the previous value). -/
def lastTextCaption (parts : List Part) : Option Str :=
  (parts.filterMap imageTextOf).getLast?

/-- `img.image` of an entry of the upstream `generatedImages` list. -/
structure ImageObj where
  imageBytes : Option Str
  mimeType : Option Str

/-- One entry of `response.generatedImages`. -/
structure GeneratedImage where
  image : Option ImageObj

/-- The `upscaleImage` / `editImage` response shape read by the source. -/
structure GeneratedImagesResponse where
  generatedImages : Option (List GeneratedImage)

/-- The normalisation loop shared by `callGeminiUpscale` and `callGeminiEdit`
(part_000 lines 245-254 and 341-350): entries with truthy
`img.image?.imageBytes` are pushed with `mimeType || 'image/png'`. -/
def generatedImagesFold (r : GeneratedImagesResponse) : List ImgAsset :=
  (r.generatedImages.getD []).filterMap
    (fun g =>
      match g.image with
      | none => none
      | some im =>
        match im.imageBytes with
        | none => none
        | some b => if b = [] then none else some ⟨jsOrStr im.mimeType pngMime, b⟩)

/-- Result of `callGeminiUpscale`: `{ images }` only, no text and no usage. -/
def callGeminiUpscaleRes (r : GeneratedImagesResponse) : GeminiImageResult :=
  ⟨none, generatedImagesFold r, none⟩

/-- Result of `callGeminiEdit`: `{ text, images }` where `text` is never
assigned, and no usage. -/
def callGeminiEditRes (r : GeneratedImagesResponse) : GeminiImageResult :=
  ⟨none, generatedImagesFold r, none⟩

/-! ## Tool dispatcher (src/src/index.ts): file-output resolution -/

/-- File name written for asset `i` (0-based) of `n` produced assets, given
the caller's output path (index.ts lines 224-227, 258-261 and 306-309):
`let filePath = args.output_path.replace(/\.[^.]+$/, '') + ext;
 if (result.images.length > 1) filePath = filePath.replace(/(\.[^.]+)$/, _(i+1)$1)`. -/
def outFileName (out : Str) (n i : Nat) (mime : Str) : Str :=
  let fp := stripExt out ++ extFor mime
  if 1 < n then insertBeforeExt ('_' :: decRepr (i + 1)) fp else fp

/-- The write loop of the image-producing tool cases, as the list of
`(path, base64 contents)` pairs passed to `writeFile` (`resolve` is modelled
as the identity: all paths of one call are resolved against the same cwd). -/
def writtenFiles (out : Str) (imgs : List ImgAsset) : List (Str × Str) :=
  imgs.enum.map (fun p => (outFileName out imgs.length p.1 p.2.mimeType, p.2.data))

/-- Index recovered from a written file name (proof helper): drop the base and
the underscore, read the decimal digits before the extension dot. -/
def decodeIdx (out : Str) (name : Str) : Nat :=
  decDecode ((name.drop ((stripExt out).length + 1)).takeWhile (fun c => ¬ c = '.')) - 1

/-! ## JSON (the host runtime's `JSON.parse`, used by `callGeminiSegment`)

`JSON.parse` is a platform primitive, not code of this repository; it is
embedded here as a standard JSON value parser (numbers keep their raw lexeme,
which the source never inspects numerically; objects keep their fields in
textual order, later duplicates shadowing earlier ones on lookup). -/

/-- JSON values. -/
inductive Json where
  | null
  | bool (b : Bool)
  | num (raw : Str)
  | str (s : Str)
  | arr (xs : List Json)
  | obj (fields : List (Str × Json))

/-- JSON whitespace. -/
def isJsonWs (c : Char) : Bool :=
  c = ' ' || c = '\t' || c = '\n' || c = '\r'

/-- Skip JSON whitespace. -/
def skipWs (l : Str) : Str := l.dropWhile isJsonWs

/-- Value of a hexadecimal digit, if any. -/
def hexVal (c : Char) : Option Nat :=
  if c.isDigit then some (c.toNat - 48)
  else if 'a' ≤ c ∧ c ≤ 'f' then some (c.toNat - 87)
  else if 'A' ≤ c ∧ c ≤ 'F' then some (c.toNat - 70)
  else none

/-- Parse the body of a JSON string after the opening quote, handling the
escape sequences and rejecting raw control characters. -/
def parseStringBody : Nat → Str → Option (Str × Str)
  | 0, _ => none
  | _, [] => none
  | f + 1, c :: rest =>
    if c = '"' then some ([], rest)
    else if c = '\\' then
      match rest with
      | [] => none
      | e :: rest2 =>
        if e = 'u' then
          match rest2 with
          | h1 :: h2 :: h3 :: h4 :: rest3 =>
            match hexVal h1, hexVal h2, hexVal h3, hexVal h4 with
            | some a, some b, some cc, some d =>
              match parseStringBody f rest3 with
              | some (s, r) => some (Char.ofNat (((a * 16 + b) * 16 + cc) * 16 + d) :: s, r)
              | none => none
            | _, _, _, _ => none
          | _ => none
        else
          match
            (if e = '"' then some '"' else if e = '\\' then some '\\'
             else if e = '/' then some '/' else if e = 'b' then some '\x08'
             else if e = 'f' then some '\x0c' else if e = 'n' then some '\n'
             else if e = 'r' then some '\r' else if e = 't' then some '\t'
             else none) with
          | some ch =>
            match parseStringBody f rest2 with
            | some (s, r) => some (ch :: s, r)
            | none => none
          | none => none
    else if c.toNat < 32 then none
    else
      match parseStringBody f rest with
      | some (s, r) => some (c :: s, r)
      | none => none

/-- Optional fraction part of a JSON number; `none` on a bare trailing dot. -/
def parseFrac (rest : Str) : Option (Str × Str) :=
  match rest with
  | '.' :: r2 =>
    let ds := r2.takeWhile Char.isDigit
    if ds = [] then none else some ('.' :: ds, r2.dropWhile Char.isDigit)
  | _ => some ([], rest)

/-- Optional exponent part of a JSON number; `none` on a bare `e`. -/
def parseExp (rest : Str) : Option (Str × Str) :=
  match rest with
  | e :: r3 =>
    if e = 'e' || e = 'E' then
      let (es, r4) :=
        match r3 with
        | s :: r5 => if s = '+' || s = '-' then (([s] : Str), r5) else (([] : Str), r3)
        | [] => (([] : Str), r3)
      let ds := r4.takeWhile Char.isDigit
      if ds = [] then none else some (e :: es ++ ds, r4.dropWhile Char.isDigit)
    else some ([], rest)
  | [] => some ([], rest)

/-- Parse a JSON number, returning its raw lexeme (the integer part is a bare
`0` or starts with a nonzero digit, as the JSON grammar requires). -/
def parseNumber (l : Str) : Option (Str × Str) :=
  let (sign, l1) : Str × Str :=
    match l with
    | '-' :: r => (['-'], r)
    | _ => ([], l)
  match l1 with
  | [] => none
  | c :: r =>
    let intRes : Option (Str × Str) :=
      if c = '0' then some (['0'], r)
      else if c.isDigit then some (l1.takeWhile Char.isDigit, l1.dropWhile Char.isDigit)
      else none
    match intRes with
    | none => none
    | some (ip, rest) =>
      match parseFrac rest with
      | none => none
      | some (fp, rest2) =>
        match parseExp rest2 with
        | none => none
        | some (ep, rest3) => some (sign ++ ip ++ fp ++ ep, rest3)

mutual

/-- Parse one JSON value (fuelled recursion; the top-level wrapper supplies
ample fuel). -/
def parseValue : Nat → Str → Option (Json × Str)
  | 0, _ => none
  | f + 1, l =>
    let l := skipWs l
    match l with
    | [] => none
    | c :: rest =>
      if c = 'n' then
        if List.isPrefixOf "ull".toList rest then some (.null, rest.drop 3) else none
      else if c = 't' then
        if List.isPrefixOf "rue".toList rest then some (.bool true, rest.drop 3) else none
      else if c = 'f' then
        if List.isPrefixOf "alse".toList rest then some (.bool false, rest.drop 4) else none
      else if c = '"' then
        match parseStringBody (rest.length + 1) rest with
        | some (s, r) => some (.str s, r)
        | none => none
      else if c = '[' then
        match skipWs rest with
        | ']' :: r2 => some (.arr [], r2)
        | _ => match parseElems f rest with
          | some (xs, r2) => some (.arr xs, r2)
          | none => none
      else if c = '{' then
        match skipWs rest with
        | '}' :: r2 => some (.obj [], r2)
        | _ => match parseFields f rest with
          | some (fs, r2) => some (.obj fs, r2)
          | none => none
      else
        match parseNumber l with
        | some (raw, r) => some (.num raw, r)
        | none => none

/-- Parse one or more comma-separated array elements and the closing bracket. -/
def parseElems : Nat → Str → Option (List Json × Str)
  | 0, _ => none
  | f + 1, l =>
    match parseValue f l with
    | none => none
    | some (v, r) =>
      match skipWs r with
      | ',' :: r2 =>
        match parseElems f r2 with
        | some (xs, r3) => some (v :: xs, r3)
        | none => none
      | ']' :: r2 => some ([v], r2)
      | _ => none

/-- Parse one or more comma-separated object members and the closing brace. -/
def parseFields : Nat → Str → Option (List (Str × Json) × Str)
  | 0, _ => none
  | f + 1, l =>
    match skipWs l with
    | '"' :: r =>
      match parseStringBody (r.length + 1) r with
      | none => none
      | some (k, r2) =>
        match skipWs r2 with
        | ':' :: r3 =>
          match parseValue f r3 with
          | none => none
          | some (v, r4) =>
            match skipWs r4 with
            | ',' :: r5 =>
              match parseFields f r5 with
              | some (fs, r6) => some ((k, v) :: fs, r6)
              | none => none
            | '}' :: r5 => some ([(k, v)], r5)
            | _ => none
        | _ => none
    | _ => none

end

/-- `JSON.parse`: parse a complete JSON document, requiring the whole input
to be consumed. `none` models the thrown `SyntaxError`. -/
def jsParse (s : Str) : Option Json :=
  match parseValue (s.length + 1) s with
  | some (v, rest) => if skipWs rest = [] then some v else none
  | none => none

/-- JavaScript property lookup on a parsed object: with duplicate keys,
`JSON.parse` keeps the last occurrence. -/
def jsField (fields : List (Str × Json)) (k : Str) : Option Json :=
  (fields.reverse.find? (fun f => f.1 = k)).map Prod.snd

/-- JavaScript `s.split(',')`. -/
def splitComma : Str → List Str
  | [] => [[]]
  | c :: rest =>
    let r := splitComma rest
    if c = ',' then [] :: r
    else
      match r with
      | [] => [[c]]
      | h :: t => (c :: h) :: t

/-- `m.mask.startsWith('data:') ? m.mask.split(',')[1] : m.mask` — the
data-URI scheme strip; the indexing yields `undefined` when the URI has no
comma. -/
def stripDataUri (s : Str) : Option Str :=
  if List.isPrefixOf "data:".toList s then (splitComma s).get? 1 else some s

/-- A mask record as actually produced at runtime: the spread `{...m}` keeps
whatever `box_2d` and `label` values the JSON carried (possibly absent), and
`mask` may become `undefined` through the data-URI split. -/
structure SegMask where
  box2d : Option Json
  mask : Option Str
  label : Option Json

/-- The `parsed.map(...)` step of `callGeminiSegment` (part_000 lines 446-449):
succeeds only when the parsed value is an array whose every element is an
object with a string `mask` field; any other shape throws a `TypeError`
(modelled as `none`), which the surrounding `catch` turns into `[]`. -/
def mapMasks (v : Json) : Option (List SegMask) :=
  match v with
  | .arr es =>
    es.mapM
      (fun e =>
        match e with
        | .obj fs =>
          match jsField fs "mask".toList with
          | some (.str s) =>
            some ⟨jsField fs "box_2d".toList, stripDataUri s, jsField fs "label".toList⟩
          | _ => none
        | _ => none)
  | _ => none

/-- `GeminiSegmentResult` of part_000. -/
structure SegResult where
  masks : List SegMask
  usage : Option Usage

/-- The mask list computed by `callGeminiSegment` from the fence-stripped
response text (part_000 lines 428-452): parse failure and mapping failure are
both swallowed by the `try`/`catch`, yielding `[]`. -/
def segMasksOf (raw : Str) : List SegMask :=
  match jsParse (stripFencesJson raw) with
  | none => []
  | some v =>
    match mapMasks v with
    | none => []
    | some ms => ms

/-- Normalisation of a segmentation response. -/
def callGeminiSegmentRes (r : GeminiResponse) : SegResult :=
  ⟨segMasksOf (extractText (firstCandidateParts r)), usageOf r⟩

/-- Claim-side predicate (spec wording), as a Boolean: the fence-stripped text
parses as a JSON array of `{box_2d, mask, label}` records — `box_2d` an array
of four numbers, `mask` a string, `label` a string. -/
def parsesAsRecordArray (raw : Str) : Bool :=
  match jsParse (stripFencesJson raw) with
  | none => false
  | some v =>
    match v with
    | .arr es =>
      es.all
        (fun e =>
          match e with
          | .obj fs =>
            (match jsField fs "box_2d".toList with
             | some (.arr [.num _, .num _, .num _, .num _]) => true
             | _ => false)
            && (match jsField fs "mask".toList with
                | some (.str _) => true
                | _ => false)
            && (match jsField fs "label".toList with
                | some (.str _) => true
                | _ => false)
          | _ => false)
    | _ => false

/-- `GeminiSvgResult` of part_000. -/
structure SvgResult where
  svg : Str
  usage : Option Usage

/-- Normalisation of an SVG response (part_000 lines 375-397): accumulate
text identically to `callGemini`, then strip fences. -/
def callGeminiSvgRes (r : GeminiResponse) : SvgResult :=
  ⟨stripFencesSvg (extractText (firstCandidateParts r)), usageOf r⟩

/-! ## Reply formatting (src/src/index.ts, CallTool handler) -/

/-- An outbound content block. -/
inductive Block where
  | text (s : Str)
  | image (data : Str) (mime : Str)

/-- A tool-call reply: content blocks plus the `isError` flag. -/
structure Reply where
  content : List Block
  isError : Bool

/-- The usage footer `**Usage:** N prompt, M completion, T total`. -/
def usageLine (u : Usage) : Str :=
  "**Usage:** ".toList ++ decRepr u.promptTokens ++ " prompt, ".toList ++
    decRepr u.completionTokens ++ " completion, ".toList ++
    decRepr u.totalTokens ++ " total".toList

/-- `\n\n` plus the usage footer when usage is present, else nothing
(`if (result.usage) text += ...`). -/
def usageSuffix (u : Option Usage) : Str :=
  match u with
  | some x => "\n\n".toList ++ usageLine x
  | none => []

/-- The standalone usage block pushed by the image and segment cases. -/
def usageBlocks (u : Option Usage) : List Block :=
  match u with
  | some x => [.text (usageLine x)]
  | none => []

/-- Reply text of the `gemini_generate` case (lines 179-180): `reasoning` is
never set by the call layer, so the text is the content plus the optional
usage footer. -/
def genText (res : GeminiResult) : Str :=
  res.content ++ usageSuffix res.usage

/-- Content blocks of the `gemini_generate` case. -/
def generateCaseBlocks (res : GeminiResult) : List Block :=
  [.text (genText res)]

/-- Content blocks of the `gemini_messages` case (lines 190-192, identical
formatting). -/
def messagesCaseBlocks (res : GeminiResult) : List Block :=
  [.text (genText res)]

/-- `if (result.text) content.push(...)`: a block for a truthy caption. -/
def textBlockOpt (t : Option Str) : List Block :=
  match t with
  | some s => if s = [] then [] else [.text s]
  | none => []

/-- `Saved: ${absPath}`. -/
def savedLine (path : Str) : Str := "Saved: ".toList ++ path

/-- The per-image loop of the image-producing cases: with an output path each
asset yields a saved-path confirmation (and a file write, see `writtenFiles`);
without one each asset is returned inline. -/
def perImageBlocks (outPath : Option Str) (imgs : List ImgAsset) : List Block :=
  match outPath with
  | some op => (writtenFiles op imgs).map (fun w => .text (savedLine w.1))
  | none => imgs.map (fun i => .image i.data i.mimeType)

/-- Content blocks of the `gemini_image` case (lines 218-236). -/
def imageCaseBlocks (outPath : Option Str) (r : GeminiImageResult) : List Block :=
  textBlockOpt r.text ++ perImageBlocks outPath r.images ++ usageBlocks r.usage

/-- Content blocks of the `gemini_upscale` case (lines 254-268): only the
per-image blocks; no text and no usage block is ever pushed. -/
def upscaleCaseBlocks (outPath : Option Str) (r : GeminiImageResult) : List Block :=
  perImageBlocks outPath r.images

/-- Content blocks of the `gemini_edit` case (lines 300-316): caption plus
per-image blocks; no usage block. -/
def editCaseBlocks (outPath : Option Str) (r : GeminiImageResult) : List Block :=
  textBlockOpt r.text ++ perImageBlocks outPath r.images

/-- Content blocks of the `gemini_svg` case (lines 325-335): a single text
block in both branches. -/
def svgCaseBlocks (outPath : Option Str) (r : SvgResult) : List Block :=
  match outPath with
  | some op => [.text ("Saved SVG: ".toList ++ op ++ usageSuffix r.usage)]
  | none => [.text (r.svg ++ usageSuffix r.usage)]

/-- `Found N segment(s):` header of the segment case (the pretty-printed
`maskInfo` JSON dump appended by the source is elided: no claim inspects it). -/
def foundLine (n : Nat) : Str :=
  "Found ".toList ++ decRepr n ++ " segment(s):\n".toList

/-- `Saved mask: ${absPath}` confirmation (the `(label: ...)` interpolation of
the source is elided: no claim inspects it). -/
def savedMaskLine (path : Str) : Str := "Saved mask: ".toList ++ path

/-- Content blocks of the `gemini_segment` case (lines 349-375). -/
def segmentCaseBlocks (outMaskPath : Option Str) (r : SegResult) : List Block :=
  (if r.masks.length = 0 then
    [.text "No objects detected for segmentation.".toList]
  else
    Block.text (foundLine r.masks.length) ::
      (match outMaskPath with
       | some p => if r.masks.length > 0 then [.text (savedMaskLine p)] else []
       | none => [])) ++ usageBlocks r.usage

/-! ## Argument schema layer (the zod schemas of src/src/index.ts) -/

/-- `getMimeType` (index.ts lines 100-107): lower-case the path, take the part
after the last `.`, look it up in a fixed table, default `image/png`. -/
def getMimeType (path : Str) : Str :=
  let ext := ((path.map Char.toLower).splitOn '.').getLast?.getD []
  if ext = "png".toList then "image/png".toList
  else if ext = "jpg".toList then "image/jpeg".toList
  else if ext = "jpeg".toList then "image/jpeg".toList
  else if ext = "gif".toList then "image/gif".toList
  else if ext = "webp".toList then "image/webp".toList
  else if ext = "bmp".toList then "image/bmp".toList
  else "image/png".toList

/-- An optional enum field is valid when absent or one of the listed values. -/
def inEnum (vals : List Str) (o : Option Str) : Bool :=
  match o with
  | none => true
  | some s => vals.contains s

/-- An optional bounded number is valid when absent or inside the closed
interval (zod `.min(lo).max(hi)`). -/
def inRange (o : Option ℚ) (lo hi : ℚ) : Bool :=
  match o with
  | none => true
  | some x => decide (lo ≤ x) && decide (x ≤ hi)

/-- JavaScript truthiness filter for an optional string argument. -/
def jsOptTruthy (o : Option Str) : Option Str :=
  match o with
  | some s => if s = [] then none else some s
  | none => none

/-- JavaScript truthiness filter for an optional number (`0` is falsy). -/
def jsNumTruthy (o : Option ℚ) : Option ℚ :=
  match o with
  | some x => if x = 0 then none else some x
  | none => none

/-- Raw (pre-validation) arguments of `gemini_generate`. -/
structure RawGenArgs where
  prompt : Option Str
  model : Option Str
  instructions : Option Str
  thinking_level : Option Str
  include_thoughts : Option Bool
  max_tokens : Option ℚ
  temperature : Option ℚ
  top_p : Option ℚ

/-- Validated arguments of `gemini_generate` (model defaulted). -/
structure GenArgs where
  prompt : Str
  model : Str
  instructions : Option Str
  thinking_level : Option Str
  include_thoughts : Option Bool
  max_tokens : Option ℚ
  temperature : Option ℚ
  top_p : Option ℚ

/-- `GeminiGenerateSchema.parse` (index.ts lines 21-30): required prompt,
model defaulting to `gemini-3-pro-preview`, `thinking_level ∈ {low, high}`,
`temperature ∈ [0,2]`, `top_p ∈ [0,1]`; `none` models the thrown `ZodError`. -/
def genParse (a : RawGenArgs) : Option GenArgs :=
  match a.prompt with
  | none => none
  | some p =>
    if inEnum ["low".toList, "high".toList] a.thinking_level
        && inRange a.temperature 0 2 && inRange a.top_p 0 1 then
      some ⟨p, a.model.getD defaultTextModel, a.instructions, a.thinking_level,
        a.include_thoughts, a.max_tokens, a.temperature, a.top_p⟩
    else none

/-- A raw conversation message. -/
structure RawMsg where
  role : Option Str
  content : Option Str

/-- Validate one conversation message (`role ∈ {user, assistant, system}`,
content required). -/
def msgParse (m : RawMsg) : Option SrcMessage :=
  match m.role, m.content with
  | some r, some c =>
    if r = "user".toList then some ⟨.user, c⟩
    else if r = "assistant".toList then some ⟨.assistant, c⟩
    else if r = "system".toList then some ⟨.system, c⟩
    else none
  | _, _ => none

/-- Raw arguments of `gemini_messages`. -/
structure RawMessagesArgs where
  messages : Option (List RawMsg)
  model : Option Str
  instructions : Option Str
  thinking_level : Option Str
  include_thoughts : Option Bool
  max_tokens : Option ℚ
  temperature : Option ℚ
  top_p : Option ℚ

/-- Validated arguments of `gemini_messages`. -/
structure MessagesArgs where
  messages : List SrcMessage
  model : Str
  instructions : Option Str
  thinking_level : Option Str
  include_thoughts : Option Bool
  max_tokens : Option ℚ
  temperature : Option ℚ
  top_p : Option ℚ

/-- `GeminiMessagesSchema.parse` (index.ts lines 32-44). -/
def messagesParse (a : RawMessagesArgs) : Option MessagesArgs :=
  match a.messages with
  | none => none
  | some ms =>
    match ms.mapM msgParse with
    | none => none
    | some parsed =>
      if inEnum ["low".toList, "high".toList] a.thinking_level
          && inRange a.temperature 0 2 && inRange a.top_p 0 1 then
        some ⟨parsed, a.model.getD defaultTextModel, a.instructions,
          a.thinking_level, a.include_thoughts, a.max_tokens, a.temperature, a.top_p⟩
      else none

/-- Raw arguments of `gemini_image`. -/
structure RawImageArgs where
  prompt : Option Str
  input_image : Option Str
  output_path : Option Str
  image_size : Option Str
  aspect_ratio : Option Str
  negative_prompt : Option Str
  num_images : Option ℚ
  guidance_scale : Option ℚ
  seed : Option ℚ

/-- Validated arguments of `gemini_image` (image size defaulted to `1K`). -/
structure ImageArgs where
  prompt : Str
  input_image : Option Str
  output_path : Option Str
  image_size : Str
  aspect_ratio : Option Str
  negative_prompt : Option Str
  num_images : Option ℚ
  guidance_scale : Option ℚ
  seed : Option ℚ

/-- The aspect-ratio value set of `GeminiImageSchema`. -/
def aspectRatioVals : List Str :=
  ["1:1".toList, "2:3".toList, "3:2".toList, "3:4".toList, "4:3".toList,
   "4:5".toList, "5:4".toList, "9:16".toList, "16:9".toList, "21:9".toList]

/-- `GeminiImageSchema.parse` (index.ts lines 46-56): required prompt,
`image_size ∈ {1K, 2K, 4K}` defaulting to `1K`, closed aspect-ratio enum,
`num_images ∈ [1,4]`. -/
def imageParse (a : RawImageArgs) : Option ImageArgs :=
  match a.prompt with
  | none => none
  | some p =>
    if inEnum ["1K".toList, "2K".toList, "4K".toList] a.image_size
        && inEnum aspectRatioVals a.aspect_ratio
        && inRange a.num_images 1 4 then
      some ⟨p, a.input_image, a.output_path, a.image_size.getD "1K".toList,
        a.aspect_ratio, a.negative_prompt, a.num_images, a.guidance_scale, a.seed⟩
    else none

/-- Raw arguments of `gemini_upscale`. -/
structure RawUpscaleArgs where
  input_image : Option Str
  output_path : Option Str
  output_format : Option Str
  jpeg_quality : Option ℚ
  upscale_factor : Option Str

/-- Validated arguments of `gemini_upscale` (factor defaulted to `x2`). -/
structure UpscaleArgs where
  input_image : Str
  output_path : Option Str
  output_format : Option Str
  jpeg_quality : Option ℚ
  upscale_factor : Str

/-- `GeminiUpscaleSchema.parse` (index.ts lines 58-64): required input image,
`output_format ∈ {png, jpeg, webp}`, `jpeg_quality ∈ [0,100]`,
`upscale_factor ∈ {x2, x4}` defaulting to `x2`. -/
def upscaleParse (a : RawUpscaleArgs) : Option UpscaleArgs :=
  match a.input_image with
  | none => none
  | some p =>
    if inEnum ["png".toList, "jpeg".toList, "webp".toList] a.output_format
        && inRange a.jpeg_quality 0 100
        && inEnum ["x2".toList, "x4".toList] a.upscale_factor then
      some ⟨p, a.output_path, a.output_format, a.jpeg_quality,
        a.upscale_factor.getD "x2".toList⟩
    else none

/-- Raw arguments of `gemini_edit`. -/
structure RawEditArgs where
  prompt : Option Str
  input_image : Option Str
  mask_image : Option Str
  output_path : Option Str
  edit_mode : Option Str
  output_format : Option Str
  jpeg_quality : Option ℚ
  negative_prompt : Option Str
  num_images : Option ℚ
  guidance_scale : Option ℚ
  seed : Option ℚ

/-- Validated arguments of `gemini_edit`. -/
structure EditArgs where
  prompt : Str
  input_image : Str
  mask_image : Option Str
  output_path : Option Str
  edit_mode : Option Str
  output_format : Option Str
  jpeg_quality : Option ℚ
  negative_prompt : Option Str
  num_images : Option ℚ
  guidance_scale : Option ℚ
  seed : Option ℚ

/-- `GeminiEditSchema.parse` (index.ts lines 66-78): required prompt and input
image, `edit_mode ∈ {inpaint, outpaint}`, `output_format ∈ {png, jpeg, webp}`,
`jpeg_quality ∈ [0,100]`, `num_images ∈ [1,4]`. -/
def editParse (a : RawEditArgs) : Option EditArgs :=
  match a.prompt, a.input_image with
  | some p, some ii =>
    if inEnum ["inpaint".toList, "outpaint".toList] a.edit_mode
        && inEnum ["png".toList, "jpeg".toList, "webp".toList] a.output_format
        && inRange a.jpeg_quality 0 100
        && inRange a.num_images 1 4 then
      some ⟨p, ii, a.mask_image, a.output_path, a.edit_mode, a.output_format,
        a.jpeg_quality, a.negative_prompt, a.num_images, a.guidance_scale, a.seed⟩
    else none
  | _, _ => none

/-! ## Image-capability requests (part_000) and the tool cases (index.ts) -/

/-- `formatToMime` table of part_000. -/
def formatToMime (f : Str) : Option Str :=
  if f = "png".toList then some "image/png".toList
  else if f = "jpeg".toList then some "image/jpeg".toList
  else if f = "webp".toList then some "image/webp".toList
  else none

/-- `GeminiImageOptions` of part_000. -/
structure GeminiImageOptions where
  imageSize : Option Str
  aspectRatioOpt : Option Str
  outputFormat : Option Str
  jpegQuality : Option ℚ
  negativePrompt : Option Str
  numberOfImages : Option ℚ
  guidanceScale : Option ℚ
  seed : Option ℚ
  inputImage : Option ImgAsset

/-- The `imageConfig` object of an image-generation request. -/
structure ImageConfig where
  imageSize : Option Str
  aspectRatioOpt : Option Str
  outputMimeType : Option Str
  outputCompressionQuality : Option ℚ

/-- The config of an image-generation request. -/
structure ImageGenConfig where
  responseModalities : List Str
  imageConfig : Option ImageConfig
  negativePrompt : Option Str
  numberOfImages : Option ℚ
  guidanceScale : Option ℚ
  seed : Option ℚ

/-- An image-generation request. -/
structure ImageGenRequest where
  model : Str
  contents : List ReqContent
  config : ImageGenConfig

/-- The request built by `callGeminiImage` (part_000 lines 132-176): optional
inline reference image part then the text part; `imageConfig` attached only
when non-empty; truthiness-guarded optional config fields. -/
def callGeminiImageReq (prompt : Str) (o : GeminiImageOptions) : ImageGenRequest :=
  let parts : List Part :=
    (match o.inputImage with
     | some d => [⟨none, some ⟨some d.mimeType, some d.data⟩⟩]
     | none => []) ++ [⟨some prompt, none⟩]
  let ic : ImageConfig :=
    ⟨jsOptTruthy o.imageSize, jsOptTruthy o.aspectRatioOpt,
     (jsOptTruthy o.outputFormat).bind formatToMime, o.jpegQuality⟩
  let icNonEmpty :=
    (jsOptTruthy o.imageSize).isSome || (jsOptTruthy o.aspectRatioOpt).isSome
      || (jsOptTruthy o.outputFormat).isSome || o.jpegQuality.isSome
  { model := "gemini-3-pro-image-preview".toList
    contents := [⟨.user, parts⟩]
    config :=
      ⟨["IMAGE".toList, "TEXT".toList], if icNonEmpty then some ic else none,
       jsOptTruthy o.negativePrompt, jsNumTruthy o.numberOfImages,
       jsNumTruthy o.guidanceScale, o.seed⟩ }

/-- The config of an upscale request. -/
structure UpscaleConfig where
  outputMimeType : Option Str
  outputCompressionQuality : Option ℚ
  upscaleFactor : Option Str

/-- An `upscaleImage` request. -/
structure UpscaleRequest where
  model : Str
  image : ImgAsset
  config : UpscaleConfig

/-- The request built by `callGeminiUpscale` (part_000 lines 218-241). -/
def callGeminiUpscaleReq (image : ImgAsset) (outputFormat : Option Str)
    (jpegQuality : Option ℚ) (upscaleFactor : Option Str) : UpscaleRequest :=
  { model := "imagen-3.0-generate-002".toList
    image := image
    config := ⟨(jsOptTruthy outputFormat).bind formatToMime, jpegQuality,
      jsOptTruthy upscaleFactor⟩ }

/-- The config of an edit request. -/
structure EditConfig where
  outputMimeType : Option Str
  outputCompressionQuality : Option ℚ
  negativePrompt : Option Str
  numberOfImages : Option ℚ
  guidanceScale : Option ℚ
  seed : Option ℚ
  editMode : Option Str

/-- An `editImage` request. -/
structure EditRequest where
  model : Str
  prompt : Str
  image : ImgAsset
  mask : Option ImgAsset
  config : EditConfig

/-- `GeminiEditOptions` of part_000. -/
structure GeminiEditOptions where
  editMode : Option Str
  outputFormat : Option Str
  jpegQuality : Option ℚ
  negativePrompt : Option Str
  numberOfImages : Option ℚ
  guidanceScale : Option ℚ
  seed : Option ℚ

/-- The request built by `callGeminiEdit` (part_000 lines 304-336); the edit
mode is upper-cased. -/
def callGeminiEditReq (prompt : Str) (image : ImgAsset) (mask : Option ImgAsset)
    (o : GeminiEditOptions) : EditRequest :=
  { model := "imagen-3.0-capability-001".toList
    prompt := prompt
    image := image
    mask := mask
    config := ⟨(jsOptTruthy o.outputFormat).bind formatToMime, o.jpegQuality,
      jsOptTruthy o.negativePrompt, jsNumTruthy o.numberOfImages,
      jsNumTruthy o.guidanceScale, o.seed,
      (jsOptTruthy o.editMode).map (List.map Char.toUpper)⟩ }

/-- The generic `Gemini API error: ...` reply produced by the `catch` of the
CallTool handler (index.ts lines 381-383), as issued for a `ZodError`; the
interpolated error message is elided (no claim inspects it). -/
def zodErrorReply : Reply :=
  ⟨[.text "Gemini API error: validation failed".toList], true⟩

/-- The `gemini_generate` case (index.ts lines 173-182): validate, build the
upstream request, normalise, format.  The upstream API is a function
parameter; the first component records the request sent (none when
validation rejects before any upstream call). -/
def geminiGenerateCase (raw : RawGenArgs) (up : GenRequest → GeminiResponse) :
    Option GenRequest × Reply :=
  match genParse raw with
  | none => (none, zodErrorReply)
  | some args =>
    let opts : GeminiOptions := ⟨some args.model, args.instructions,
      args.thinking_level, args.include_thoughts, args.max_tokens,
      args.temperature, args.top_p⟩
    let req := callGeminiReq args.prompt opts
    (some req, ⟨generateCaseBlocks (geminiResultOf (up req)), false⟩)

/-- The `gemini_messages` case (index.ts lines 184-193). -/
def geminiMessagesCase (raw : RawMessagesArgs) (up : GenRequest → GeminiResponse) :
    Option GenRequest × Reply :=
  match messagesParse raw with
  | none => (none, zodErrorReply)
  | some args =>
    let opts : GeminiOptions := ⟨some args.model, args.instructions,
      args.thinking_level, args.include_thoughts, args.max_tokens,
      args.temperature, args.top_p⟩
    let req := callGeminiWithMessagesReq args.messages opts
    (some req, ⟨messagesCaseBlocks (geminiResultOf (up req)), false⟩)

/-- The `gemini_image` case (index.ts lines 195-237); `readF` models
`readFile` composed with base64 encoding. -/
def geminiImageCase (raw : RawImageArgs) (readF : Str → Str)
    (up : ImageGenRequest → GeminiResponse) : Option ImageGenRequest × Reply :=
  match imageParse raw with
  | none => (none, zodErrorReply)
  | some args =>
    let inputImage : Option ImgAsset :=
      (jsOptTruthy args.input_image).map (fun p => ⟨getMimeType p, readF p⟩)
    let req := callGeminiImageReq args.prompt
      ⟨some args.image_size, args.aspect_ratio, none, none,
       args.negative_prompt, args.num_images, args.guidance_scale, args.seed,
       inputImage⟩
    let res := callGeminiImageRes (up req)
    (some req, ⟨imageCaseBlocks (jsOptTruthy args.output_path) res, false⟩)

/-- The `gemini_upscale` case (index.ts lines 239-268). -/
def geminiUpscaleCase (raw : RawUpscaleArgs) (readF : Str → Str)
    (up : UpscaleRequest → GeneratedImagesResponse) : Option UpscaleRequest × Reply :=
  match upscaleParse raw with
  | none => (none, zodErrorReply)
  | some args =>
    let inputImage : ImgAsset := ⟨getMimeType args.input_image, readF args.input_image⟩
    let req := callGeminiUpscaleReq inputImage args.output_format
      args.jpeg_quality (some args.upscale_factor)
    let res := callGeminiUpscaleRes (up req)
    (some req, ⟨upscaleCaseBlocks (jsOptTruthy args.output_path) res, false⟩)

/-- The `gemini_edit` case (index.ts lines 271-317). -/
def geminiEditCase (raw : RawEditArgs) (readF : Str → Str)
    (up : EditRequest → GeneratedImagesResponse) : Option EditRequest × Reply :=
  match editParse raw with
  | none => (none, zodErrorReply)
  | some args =>
    let inputImage : ImgAsset := ⟨getMimeType args.input_image, readF args.input_image⟩
    let mask : Option ImgAsset :=
      (jsOptTruthy args.mask_image).map (fun p => ⟨getMimeType p, readF p⟩)
    let req := callGeminiEditReq args.prompt inputImage mask
      ⟨args.edit_mode, args.output_format, args.jpeg_quality,
       args.negative_prompt, args.num_images, args.guidance_scale, args.seed⟩
    let res := callGeminiEditRes (up req)
    (some req, ⟨editCaseBlocks (jsOptTruthy args.output_path) res, false⟩)

/-! ## Configuration gate: unconfigured mode (index.ts lines 142-155) -/

/-- The static setup help text (`SETUP_INSTRUCTIONS`, index.ts lines 110-134,
after the `.trim()`). -/
def setupInstructions : Str :=
  ("Gemini MCP Server - Setup Required\n\nGEMINI_API_KEY environment variable is not set.\n\nSetup Steps:\n\n1. Get an API key from Google AI Studio:\n   https://aistudio.google.com/apikey\n\n2. Add to your shell profile (~/.zshrc or ~/.bashrc):\n   export GEMINI_API_KEY=\"your-api-key-here\"\n\n3. Restart your terminal and Claude Code\n\nAlternative - Add directly via Claude CLI:\n   claude mcp add -s user gemini -e GEMINI_API_KEY=your-key -- bunx @bopen-io/gemcp\n\nAfter setup, restart Claude Code to enable all Gemini tools:\n- gemini_generate: Text generation with thinking modes\n- gemini_messages: Conversation-based generation\n- gemini_image: Image generation with full control over format, size, aspect ratio\n- gemini_upscale: Upscale images 2x or 4x\n- gemini_edit: Edit images with inpainting/outpainting").toList

/-- The tool names advertised by the unconfigured ListTools handler. -/
def unconfiguredToolNames : List Str := ["gemini_setup".toList]

/-- Protocol-level error codes thrown by the handlers (`McpError`). -/
inductive McpErrorCode where
  | methodNotFound
deriving DecidableEq

/-- Outcome of a tool invocation: a normal reply, or a thrown `McpError`
that the protocol layer surfaces as a JSON-RPC error. -/
inductive CallOutcome where
  | reply (r : Reply)
  | mcpError (code : McpErrorCode) (msg : Str)

/-- The unconfigured CallTool handler (index.ts lines 150-155): the setup tool
returns the static text; any other name throws `MethodNotFound`. -/
def unconfiguredCall (name : Str) : CallOutcome :=
  if name = "gemini_setup".toList then
    .reply ⟨[.text setupInstructions], false⟩
  else
    .mcpError .methodNotFound ("Unknown tool: ".toList ++ name)

/-- A concrete upstream response whose first candidate carries two text
parts (`a` then `b`) and no inline data. -/
def twoTextPartsResp : GeminiResponse :=
  ⟨[⟨some ⟨some [⟨some "a".toList, none⟩, ⟨some "b".toList, none⟩]⟩⟩], none, none⟩

/-! ## Helper lemmas -/

theorem jsTrim_idem (s : Str) : jsTrim (jsTrim s) = jsTrim s := by
  unfold jsTrim
  have h1 : (List.rdropWhile isWsChar (s.dropWhile isWsChar)).dropWhile isWsChar =
      List.rdropWhile isWsChar (s.dropWhile isWsChar) := by
    rw [List.dropWhile_eq_self_iff]
    intro hl hp
    have hpre := List.rdropWhile_prefix isWsChar (s.dropWhile isWsChar)
    have hlen : 0 < (s.dropWhile isWsChar).length :=
      lt_of_lt_of_le hl hpre.length_le
    have hget := List.IsPrefix.getElem hpre hl
    have := List.dropWhile_get_zero_not isWsChar s hlen
    simp only [List.get_eq_getElem] at this hp
    rw [hget] at hp
    exact this hp
  rw [h1, List.rdropWhile_idempotent]

theorem isPrefixOf_append_left (a b t : Str) (h : (a ++ b).isPrefixOf t = true) :
    a.isPrefixOf t = true := by
  rw [List.isPrefixOf_iff_prefix] at h ⊢
  exact (List.prefix_append a b).trans h

theorem splitAtLastDot_eq_none (p : Str) (h : splitAtLastDot p = none) : '.' ∉ p := by
  induction p with
  | nil => simp
  | cons c rest ih =>
    unfold splitAtLastDot at h
    cases hr : splitAtLastDot rest with
    | some v => rw [hr] at h; simp at h
    | none =>
      rw [hr] at h
      by_cases hc : c = '.'
      · rw [if_pos hc] at h; simp at h
      · rw [if_neg hc] at h
        intro hmem
        rcases List.mem_cons.mp hmem with h1 | h2
        · exact hc h1.symm
        · exact ih hr h2

theorem splitAtLastDot_eq_some (p a b : Str) (h : splitAtLastDot p = some (a, b)) :
    p = a ++ '.' :: b ∧ '.' ∉ b := by
  induction p generalizing a b with
  | nil => simp [splitAtLastDot] at h
  | cons c rest ih =>
    unfold splitAtLastDot at h
    cases hr : splitAtLastDot rest with
    | some pr =>
      rw [hr] at h
      obtain ⟨a', b'⟩ := pr
      simp only [Option.some.injEq, Prod.mk.injEq] at h
      obtain ⟨ha, hb⟩ := h
      obtain ⟨he, hnb⟩ := ih a' b' hr
      subst ha hb he
      exact ⟨by simp, hnb⟩
    | none =>
      rw [hr] at h
      by_cases hc : c = '.'
      · rw [if_pos hc] at h
        simp only [Option.some.injEq, Prod.mk.injEq] at h
        obtain ⟨ha, hb⟩ := h
        subst ha hb hc
        exact ⟨by simp, splitAtLastDot_eq_none rest hr⟩
      · rw [if_neg hc] at h
        exact absurd h (by simp)

theorem splitAtLastDot_of_not_mem (p : Str) (h : '.' ∉ p) : splitAtLastDot p = none := by
  induction p with
  | nil => rfl
  | cons c rest ih =>
    unfold splitAtLastDot
    have hc : ¬ c = '.' := fun hc => h (by simp [hc])
    rw [ih (fun hm => h (List.mem_cons_of_mem c hm)), if_neg hc]

theorem splitAtLastDot_append (a b : Str) (hb : '.' ∉ b) :
    splitAtLastDot (a ++ '.' :: b) = some (a, b) := by
  induction a with
  | nil =>
    simp only [List.nil_append]
    unfold splitAtLastDot
    rw [splitAtLastDot_of_not_mem b hb, if_pos rfl]
  | cons c rest ih =>
    simp only [List.cons_append]
    unfold splitAtLastDot
    rw [ih]

theorem stripExt_append (a b : Str) (hb : '.' ∉ b) (hne : b ≠ []) :
    stripExt (a ++ '.' :: b) = a := by
  unfold stripExt
  rw [splitAtLastDot_append a b hb]
  simp [hne]

theorem insertBeforeExt_append (suf a b : Str) (hb : '.' ∉ b) (hne : b ≠ []) :
    insertBeforeExt suf (a ++ '.' :: b) = a ++ suf ++ '.' :: b := by
  unfold insertBeforeExt
  rw [splitAtLastDot_append a b hb]
  simp [hne]

theorem extFor_decomp (mime : Str) :
    ∃ e : Str, extFor mime = '.' :: e ∧ e ≠ [] ∧ '.' ∉ e := by
  unfold extFor
  by_cases h1 : mime = "image/png".toList
  · rw [if_pos h1]; exact ⟨"png".toList, by decide⟩
  · rw [if_neg h1]
    by_cases h2 : mime = "image/webp".toList
    · rw [if_pos h2]; exact ⟨"webp".toList, by decide⟩
    · rw [if_neg h2]; exact ⟨"jpg".toList, by decide⟩

theorem digitChar_ne_dot (d : Nat) : digitChar d ≠ '.' := by
  unfold digitChar
  repeat' split
  all_goals decide

theorem digitVal_digitChar (d : Nat) (h : d < 10) : digitVal (digitChar d) = d := by
  interval_cases d <;> rfl

theorem decReprAux_ne_dot (f n : Nat) (c : Char) (hc : c ∈ decReprAux f n) :
    c ≠ '.' := by
  induction f generalizing n with
  | zero => simp [decReprAux] at hc
  | succ f ih =>
    unfold decReprAux at hc
    by_cases h : n < 10
    · rw [if_pos h] at hc
      simp only [List.mem_singleton] at hc
      subst hc; exact digitChar_ne_dot n
    · rw [if_neg h] at hc
      rcases List.mem_append.mp hc with h1 | h2
      · exact ih _ h1
      · simp only [List.mem_singleton] at h2
        subst h2; exact digitChar_ne_dot _

theorem decRepr_ne_dot (n : Nat) (c : Char) (hc : c ∈ decRepr n) : c ≠ '.' :=
  decReprAux_ne_dot _ _ _ hc

theorem decDecode_decReprAux (f n : Nat) (h : n < f) :
    decDecode (decReprAux f n) = n := by
  induction f generalizing n with
  | zero => omega
  | succ f ih =>
    unfold decReprAux
    by_cases hn : n < 10
    · rw [if_pos hn]
      simp only [decDecode, List.foldl_cons, List.foldl_nil]
      rw [digitVal_digitChar n hn]
      omega
    · rw [if_neg hn]
      have hdiv : n / 10 < f := by
        have := Nat.div_lt_self (by omega : 0 < n) (by omega : 1 < 10)
        omega
      simp only [decDecode, List.foldl_append, List.foldl_cons, List.foldl_nil]
      have := ih (n / 10) hdiv
      simp only [decDecode] at this
      rw [this, digitVal_digitChar _ (Nat.mod_lt n (by omega))]
      omega

theorem decDecode_decRepr (n : Nat) : decDecode (decRepr n) = n :=
  decDecode_decReprAux _ _ (Nat.lt_succ_self n)

theorem takeWhile_append_not (p : Char → Bool) (xs ys : Str) (y : Char)
    (hxs : ∀ x ∈ xs, p x = true) (hy : p y = false) :
    (xs ++ y :: ys).takeWhile p = xs := by
  induction xs with
  | nil => simp [List.takeWhile_cons, hy]
  | cons x tail ih =>
    simp only [List.cons_append, List.takeWhile_cons, hxs x (by simp), if_true]
    rw [ih (fun a ha => hxs a (by simp [ha]))]

theorem extractText_foldl (parts : List Part) (acc : Str) :
    parts.foldl
      (fun acc p =>
        match p.text with
        | some t => if t = [] then acc else acc ++ t
        | none => acc) acc = acc ++ specTextConcat parts := by
  induction parts generalizing acc with
  | nil => simp [specTextConcat]
  | cons p rest ih =>
    simp only [List.foldl_cons]
    cases hp : p.text with
    | none => rw [ih]; simp [specTextConcat, List.filterMap_cons, hp]
    | some t =>
      rw [ih]
      by_cases ht : t = []
      · simp [specTextConcat, List.filterMap_cons, hp, ht]
      · simp [specTextConcat, List.filterMap_cons, hp, ht]

theorem extractText_eq_spec (parts : List Part) :
    extractText parts = specTextConcat parts := by
  unfold extractText
  rw [extractText_foldl]
  simp

/-- C1: for `gemini_generate` (`callGemini`) and `gemini_messages`
(`callGeminiWithMessages`) the returned content equals the in-order
concatenation of all text parts of the first candidate (empty when there are
none); the result does not depend on the response's top-level `text`
accessor; and an absent model argument yields the default identifier
`gemini-3-pro-preview`, both at the call layer and through the validated
dispatcher cases. -/
theorem c1_content_extraction_and_default_model :
    (∀ (prompt : Str) (o : GeminiOptions) (up : GenRequest → GeminiResponse),
      (callGemini prompt o up).content =
        specTextConcat (firstCandidateParts (up (callGeminiReq prompt o)))) ∧
    (∀ (msgs : List SrcMessage) (o : GeminiOptions) (up : GenRequest → GeminiResponse),
      (callGeminiWithMessages msgs o up).content =
        specTextConcat (firstCandidateParts (up (callGeminiWithMessagesReq msgs o)))) ∧
    (∀ (r : GeminiResponse) (t : Option Str),
      (geminiResultOf { r with text := t }).content = (geminiResultOf r).content) ∧
    (∀ (o : GeminiOptions) (prompt : Str), o.model = none →
      (callGeminiReq prompt o).model = defaultTextModel) ∧
    (∀ (o : GeminiOptions) (msgs : List SrcMessage), o.model = none →
      (callGeminiWithMessagesReq msgs o).model = defaultTextModel) ∧
    (∀ (raw : RawGenArgs) (up : GenRequest → GeminiResponse) (req : GenRequest),
      raw.model = none → (geminiGenerateCase raw up).1 = some req →
      req.model = defaultTextModel) ∧
    (∀ (raw : RawMessagesArgs) (up : GenRequest → GeminiResponse) (req : GenRequest),
      raw.model = none → (geminiMessagesCase raw up).1 = some req →
      req.model = defaultTextModel) := by
  refine ⟨?_, ?_, ?_, ?_, ?_, ?_, ?_⟩
  · intro prompt o up
    exact extractText_eq_spec _
  · intro msgs o up
    exact extractText_eq_spec _
  · intro r t
    rfl
  · intro o prompt h
    simp [callGeminiReq, jsOrStr, h]
  · intro o msgs h
    simp [callGeminiWithMessagesReq, jsOrStr, h]
  · intro raw up req hmodel heq
    unfold geminiGenerateCase at heq
    cases hp : genParse raw with
    | none => rw [hp] at heq; simp at heq
    | some args =>
      rw [hp] at heq
      simp only [Option.some.injEq] at heq
      have hm : args.model = defaultTextModel := by
        unfold genParse at hp
        split at hp
        · simp at hp
        · split at hp
          · simp only [Option.some.injEq] at hp
            rw [← hp]
            simp [hmodel]
          · simp at hp
      rw [← heq]
      simp [callGeminiReq, jsOrStr, hm, defaultTextModel]
  · intro raw up req hmodel heq
    unfold geminiMessagesCase at heq
    cases hp : messagesParse raw with
    | none => rw [hp] at heq; simp at heq
    | some args =>
      rw [hp] at heq
      simp only [Option.some.injEq] at heq
      have hm : args.model = defaultTextModel := by
        unfold messagesParse at hp
        split at hp
        · simp at hp
        · split at hp
          · simp at hp
          · split at hp
            · simp only [Option.some.injEq] at hp
              rw [← hp]
              simp [hmodel]
            · simp at hp
      rw [← heq]
      simp [callGeminiWithMessagesReq, jsOrStr, hm, defaultTextModel]

/-- C1 witness: concrete instantiation of the hypothesis-carrying parts. -/
theorem c1_witness :
    (callGeminiReq "Say hello".toList ⟨none, none, none, none, none, none, none⟩).model =
      defaultTextModel ∧
    (callGeminiWithMessagesReq [⟨.user, "hi".toList⟩]
      ⟨none, none, none, none, none, none, none⟩).model = defaultTextModel ∧
    ∀ req, (geminiGenerateCase ⟨some "Say hello".toList, none, none, none, none,
        none, none, none⟩ (fun _ => ⟨[], none, none⟩)).1 = some req →
      req.model = defaultTextModel :=
  ⟨c1_content_extraction_and_default_model.2.2.2.1 _ _ rfl,
   c1_content_extraction_and_default_model.2.2.2.2.1 _ _ rfl,
   fun req h =>
     c1_content_extraction_and_default_model.2.2.2.2.2.1 _ _ req rfl h⟩

theorem outFileName_eq_of_many (out : Str) (n i : Nat) (mime : Str) (hn : 1 < n) :
    outFileName out n i mime =
      stripExt out ++ '_' :: (decRepr (i + 1) ++ extFor mime) := by
  obtain ⟨e, he, hene, hnd⟩ := extFor_decomp mime
  unfold outFileName
  rw [if_pos hn, he, insertBeforeExt_append _ _ _ hnd hene]
  simp

theorem decodeIdx_outFileName (out : Str) (n i : Nat) (mime : Str) (hn : 1 < n) :
    decodeIdx out (outFileName out n i mime) = i := by
  obtain ⟨e, he, hene, hnd⟩ := extFor_decomp mime
  rw [outFileName_eq_of_many out n i mime hn]
  unfold decodeIdx
  have hsplit : stripExt out ++ '_' :: (decRepr (i + 1) ++ extFor mime) =
      (stripExt out ++ ['_']) ++ (decRepr (i + 1) ++ extFor mime) := by simp
  have hlen : (stripExt out).length + 1 = (stripExt out ++ ['_']).length := by simp
  rw [hsplit, hlen, List.drop_left, he,
    takeWhile_append_not _ _ _ '.'
      (fun x hx => by simpa using decRepr_ne_dot _ x hx) (by decide),
    decDecode_decRepr]
  omega

/-- C2: for every image-producing call with an output path and `N` produced
assets, exactly `N` files are written; when `N > 1` the file names are
pairwise distinct, each carrying the 1-based `_<index>` suffix inserted
before the extension; when `N = 1` no suffix is added; and every written
file's name ends with the extension derived from its asset's mime type. -/
theorem c2_write_loop (out : Str) (imgs : List ImgAsset) :
    (writtenFiles out imgs).length = imgs.length ∧
    (1 < imgs.length → ((writtenFiles out imgs).map Prod.fst).Nodup) ∧
    (∀ (i : Nat) (h1 : i < (writtenFiles out imgs).length) (h2 : i < imgs.length),
      extFor imgs[i].mimeType <:+ (writtenFiles out imgs)[i].1) ∧
    (1 < imgs.length →
      ∀ (i : Nat) (h1 : i < (writtenFiles out imgs).length) (h2 : i < imgs.length),
      (writtenFiles out imgs)[i].1 =
        stripExt out ++ '_' :: (decRepr (i + 1) ++ extFor imgs[i].mimeType)) ∧
    (∀ img : ImgAsset, writtenFiles out [img] =
      [(stripExt out ++ extFor img.mimeType, img.data)]) := by
  have hget : ∀ (i : Nat) (h1 : i < (writtenFiles out imgs).length)
      (h2 : i < imgs.length),
      (writtenFiles out imgs)[i] =
        (outFileName out imgs.length i imgs[i].mimeType, imgs[i].data) := by
    intro i h1 h2
    simp [writtenFiles, List.getElem_enum]
  refine ⟨?_, ?_, ?_, ?_, ?_⟩
  · simp [writtenFiles]
  · intro hn
    apply List.Nodup.of_map (decodeIdx out)
    have hmap : ((writtenFiles out imgs).map Prod.fst).map (decodeIdx out) =
        imgs.enum.map Prod.fst := by
      unfold writtenFiles
      rw [List.map_map, List.map_map]
      apply List.map_congr_left
      intro a _
      exact decodeIdx_outFileName out imgs.length a.1 a.2.mimeType hn
    rw [hmap, List.enum_map_fst]
    exact List.nodup_range _
  · intro i h1 h2
    rw [hget i h1 h2]
    by_cases hn : 1 < imgs.length
    · rw [outFileName_eq_of_many out imgs.length i imgs[i].mimeType hn]
      exact ⟨stripExt out ++ '_' :: decRepr (i + 1), by simp⟩
    · unfold outFileName
      rw [if_neg hn]
      exact ⟨stripExt out, rfl⟩
  · intro hn i h1 h2
    rw [hget i h1 h2]
    exact outFileName_eq_of_many out imgs.length i imgs[i].mimeType hn
  · intro img
    simp [writtenFiles, List.enum, outFileName]

/-- C2 witness: two assets (png and jpeg) written under output path `o.png`:
two files, distinct suffixed names, extensions from the mime types. -/
theorem c2_witness :
    (writtenFiles "o.png".toList
        [⟨"image/png".toList, "AA".toList⟩, ⟨"image/jpeg".toList, "BB".toList⟩]).length = 2 ∧
    ((writtenFiles "o.png".toList
        [⟨"image/png".toList, "AA".toList⟩,
         ⟨"image/jpeg".toList, "BB".toList⟩]).map Prod.fst).Nodup ∧
    extFor ("image/jpeg".toList) <:+
      (writtenFiles "o.png".toList
        [⟨"image/png".toList, "AA".toList⟩, ⟨"image/jpeg".toList, "BB".toList⟩])[1].1 := by
  refine ⟨(c2_write_loop _ _).1, (c2_write_loop _ _).2.1 (by decide), ?_⟩
  have h := (c2_write_loop "o.png".toList
    [⟨"image/png".toList, "AA".toList⟩,
     ⟨"image/jpeg".toList, "BB".toList⟩]).2.2.1 1 (by decide) (by decide)
  simpa using h

theorem jsTrim_stripFencesSvg (s : Str) :
    jsTrim (stripFencesSvg s) = stripFencesSvg s := by
  unfold stripFencesSvg
  exact jsTrim_idem _

theorem jsTrim_stripFencesJson (s : Str) :
    jsTrim (stripFencesJson s) = stripFencesJson s := by
  unfold stripFencesJson
  exact jsTrim_idem _

theorem isPrefixOf_ticks_of_svg (t : Str)
    (h : List.isPrefixOf "```svg".toList t = true) :
    List.isPrefixOf "```".toList t = true := by
  apply isPrefixOf_append_left "```".toList "svg".toList
  have he : ("```".toList ++ "svg".toList) = "```svg".toList := by decide
  rw [he]
  exact h

theorem isPrefixOf_ticks_of_xml (t : Str)
    (h : List.isPrefixOf "```xml".toList t = true) :
    List.isPrefixOf "```".toList t = true := by
  apply isPrefixOf_append_left "```".toList "xml".toList
  have he : ("```".toList ++ "xml".toList) = "```xml".toList := by decide
  rw [he]
  exact h

theorem isPrefixOf_ticks_of_json (t : Str)
    (h : List.isPrefixOf "```json".toList t = true) :
    List.isPrefixOf "```".toList t = true := by
  apply isPrefixOf_append_left "```".toList "json".toList
  have he : ("```".toList ++ "json".toList) = "```json".toList := by decide
  rw [he]
  exact h

/-- C3 counterexample: the fence stripping is not idempotent as stated: on
input `abc‵‵‵‵‵‵` (six trailing backticks) one application leaves
`abc‵‵‵` and a second application strips again. -/
theorem c3_counterexample :
    (stripFencesSvg (stripFencesSvg "abc``````".toList) ≠
      stripFencesSvg "abc``````".toList) ∧
    (stripFencesJson (stripFencesJson "abc``````".toList) ≠
      stripFencesJson "abc``````".toList) :=
  ⟨by decide, by decide⟩

/-- C3 (amended): the fence stripping (for both the SVG and the segmentation
variant) is idempotent on every input whose stripped output neither starts
nor ends with a ``` fence marker; on outputs still carrying a leading or
trailing marker a second application strips again. -/
theorem c3_strip_idempotent_without_residual_fences (s : Str) :
    (List.isPrefixOf "```".toList (stripFencesSvg s) = false →
     List.isSuffixOf "```".toList (stripFencesSvg s) = false →
     stripFencesSvg (stripFencesSvg s) = stripFencesSvg s) ∧
    (List.isPrefixOf "```".toList (stripFencesJson s) = false →
     List.isSuffixOf "```".toList (stripFencesJson s) = false →
     stripFencesJson (stripFencesJson s) = stripFencesJson s) := by
  constructor
  · have htrim := jsTrim_stripFencesSvg s
    generalize hgen : stripFencesSvg s = o at *
    intro h1 h2
    have hsvg : List.isPrefixOf "```svg".toList o = false := by
      cases h : List.isPrefixOf "```svg".toList o with
      | false => rfl
      | true =>
        have := isPrefixOf_ticks_of_svg o h
        rw [h1] at this
        simp at this
    have hxml : List.isPrefixOf "```xml".toList o = false := by
      cases h : List.isPrefixOf "```xml".toList o with
      | false => rfl
      | true =>
        have := isPrefixOf_ticks_of_xml o h
        rw [h1] at this
        simp at this
    simp only [stripFencesSvg, htrim, hsvg, hxml, h1, h2, Bool.false_eq_true,
      if_false]
  · have htrim := jsTrim_stripFencesJson s
    generalize hgen : stripFencesJson s = o at *
    intro h1 h2
    have hjson : List.isPrefixOf "```json".toList o = false := by
      cases h : List.isPrefixOf "```json".toList o with
      | false => rfl
      | true =>
        have := isPrefixOf_ticks_of_json o h
        rw [h1] at this
        simp at this
    simp only [stripFencesJson, htrim, hjson, h1, h2, Bool.false_eq_true,
      if_false]

/-- C3 witness: the amended idempotence at the concrete input `abc`. -/
theorem c3_witness :
    stripFencesSvg (stripFencesSvg "abc".toList) = stripFencesSvg "abc".toList ∧
    stripFencesJson (stripFencesJson "abc".toList) = stripFencesJson "abc".toList :=
  ⟨(c3_strip_idempotent_without_residual_fences "abc".toList).1
      (by decide) (by decide),
   (c3_strip_idempotent_without_residual_fences "abc".toList).2
      (by decide) (by decide)⟩

/-- C4 counterexample: the raw response text `[\x7b"mask":"x"\x7d]` is valid
JSON but not an array of `{box_2d, mask, label}` records, yet the computed
mask list is non-empty — the code checks only JSON well-formedness and a
string `mask` field, not the full record shape. -/
theorem c4_counterexample :
    parsesAsRecordArray "[\x7b\"mask\":\"x\"\x7d]".toList = false ∧
    (segMasksOf "[\x7b\"mask\":\"x\"\x7d]".toList).length = 1 :=
  ⟨by rfl, by rfl⟩

/-- C4 (amended): when the fence-stripped response text fails `JSON.parse`,
or when the parsed value is not an array of objects each carrying a string
`mask` field (so the mapping step throws), the mask list is empty and no
error propagates; in particular `not json` yields no masks. -/
theorem c4_parse_failure_yields_empty_masks (raw : Str) :
    (jsParse (stripFencesJson raw) = none → segMasksOf raw = []) ∧
    (∀ v, jsParse (stripFencesJson raw) = some v → mapMasks v = none →
      segMasksOf raw = []) := by
  constructor
  · intro h
    unfold segMasksOf
    simp only [h]
  · intro v h1 h2
    unfold segMasksOf
    simp only [h1, h2]

/-- C4 witness: the concrete raw text `not json` yields an empty mask list. -/
theorem c4_witness : segMasksOf "not json".toList = [] :=
  (c4_parse_failure_yields_empty_masks "not json".toList).1 (by rfl)

theorem getLast?_cons_or {α : Type} (x : α) (xs : List α) (t0 : Option α) :
    ((x :: xs).getLast?).or t0 = (xs.getLast?).or (some x) := by
  cases xs with
  | nil => simp
  | cons y ys =>
    rw [List.getLast?_cons_cons]
    cases h : (y :: ys).getLast? with
    | some z => simp [h]
    | none =>
      rw [List.getLast?_eq_none_iff] at h
      exact absurd h (by simp)

theorem imageFold_go (parts : List Part) (acc : Option Str × List ImgAsset) :
    parts.foldl
      (fun acc p =>
        match p.inlineData with
        | some d => (acc.1, acc.2 ++ [assetOfInline d])
        | none =>
          match p.text with
          | some t => if t = [] then acc else (some t, acc.2)
          | none => acc) acc =
      (((parts.filterMap imageTextOf).getLast?).or acc.1,
        acc.2 ++ specInlineAssets parts) := by
  induction parts generalizing acc with
  | nil => simp [specInlineAssets]
  | cons p rest ih =>
    simp only [List.foldl_cons]
    rw [ih]
    cases hp : p.inlineData with
    | some d =>
      simp [specInlineAssets, imageTextOf, List.filterMap_cons, hp]
    | none =>
      cases hpt : p.text with
      | none =>
        simp [specInlineAssets, imageTextOf, List.filterMap_cons, hp, hpt]
      | some t =>
        by_cases ht : t = []
        · simp [specInlineAssets, imageTextOf, List.filterMap_cons, hp, hpt, ht]
        · simp only [specInlineAssets, imageTextOf, List.filterMap_cons, hp, hpt,
            if_neg ht]
          rw [getLast?_cons_or]

theorem imageFold_eq (parts : List Part) :
    imageFold parts = (lastTextCaption parts, specInlineAssets parts) := by
  unfold imageFold lastTextCaption
  rw [imageFold_go]
  simp

/-- C5 counterexample: an upstream response whose first candidate carries the
two text parts `a` and `b` yields caption `b` (assignment overwrites), not
the concatenation `ab` the claim demands. -/
theorem c5_counterexample :
    (callGeminiImageRes twoTextPartsResp).text = some "b".toList ∧
    (callGeminiImageRes twoTextPartsResp).text ≠
      some (specTextConcat (firstCandidateParts twoTextPartsResp)) :=
  ⟨by rfl, by decide⟩

/-- C5 (amended): every inline-data part of the first candidate becomes
exactly one image asset in order, the mime type defaulting to `image/png`
when the upstream leaves it unspecified; the optional caption equals the
LAST truthy text part of the first candidate (each text part overwrites the
previous one), not their concatenation. -/
theorem c5_image_normalization (r : GeminiResponse) :
    (callGeminiImageRes r).images = specInlineAssets (firstCandidateParts r) ∧
    (callGeminiImageRes r).text = lastTextCaption (firstCandidateParts r) ∧
    (∀ d : InlineData, d.mimeType = none → (assetOfInline d).mimeType = pngMime) := by
  refine ⟨?_, ?_, ?_⟩
  · unfold callGeminiImageRes
    rw [imageFold_eq]
  · unfold callGeminiImageRes
    rw [imageFold_eq]
  · intro d h
    simp [assetOfInline, jsOrStr, h]

/-- C5 witness: the png default at a concrete inline part without a mime. -/
theorem c5_witness : (assetOfInline ⟨none, some "Zg==".toList⟩).mimeType = pngMime :=
  (c5_image_normalization ⟨[], none, none⟩).2.2 ⟨none, some "Zg==".toList⟩ rfl

/-- C6 counterexample: a schema-valid `gemini_upscale` call whose upstream
response carries zero generated images (and no text and no usage metadata)
returns a reply with zero content blocks; the reply is not an error and the
upstream call was made. -/
theorem c6_counterexample :
    ((geminiUpscaleCase ⟨some "in.png".toList, none, none, none, none⟩
        (fun _ => "QUFB".toList) (fun _ => ⟨none⟩)).2.content).length = 0 ∧
    (geminiUpscaleCase ⟨some "in.png".toList, none, none, none, none⟩
        (fun _ => "QUFB".toList) (fun _ => ⟨none⟩)).2.isError = false ∧
    ((geminiUpscaleCase ⟨some "in.png".toList, none, none, none, none⟩
        (fun _ => "QUFB".toList) (fun _ => ⟨none⟩)).1).isSome = true :=
  ⟨rfl, rfl, rfl⟩

/-- C6 (amended): the text, conversation, SVG and segmentation cases always
reply with at least one content block; the image, upscale and edit cases
reply with at least one block only under the stated conditions (some image
produced, or — where the case pushes them — a truthy caption or usage
metadata), and may reply with zero blocks otherwise. -/
theorem c6_reply_block_conditions :
    (∀ res, 1 ≤ (generateCaseBlocks res).length) ∧
    (∀ res, 1 ≤ (messagesCaseBlocks res).length) ∧
    (∀ (op : Option Str) (r : SvgResult), 1 ≤ (svgCaseBlocks op r).length) ∧
    (∀ (op : Option Str) (r : SegResult), 1 ≤ (segmentCaseBlocks op r).length) ∧
    (∀ (op : Option Str) (r : GeminiImageResult), r.images ≠ [] →
      1 ≤ (upscaleCaseBlocks op r).length) ∧
    (∀ (op : Option Str) (r : GeminiImageResult),
      (∃ t, r.text = some t ∧ t ≠ []) ∨ r.images ≠ [] ∨ r.usage ≠ none →
      1 ≤ (imageCaseBlocks op r).length) ∧
    (∀ (op : Option Str) (r : GeminiImageResult),
      (∃ t, r.text = some t ∧ t ≠ []) ∨ r.images ≠ [] →
      1 ≤ (editCaseBlocks op r).length) := by
  have hper : ∀ (op : Option Str) (imgs : List ImgAsset),
      (perImageBlocks op imgs).length = imgs.length := by
    intro op imgs
    cases op <;> simp [perImageBlocks, writtenFiles]
  have htext : ∀ (t : Str), t ≠ [] → (textBlockOpt (some t)).length = 1 := by
    intro t ht
    simp [textBlockOpt, ht]
  refine ⟨?_, ?_, ?_, ?_, ?_, ?_, ?_⟩
  · intro res
    simp [generateCaseBlocks]
  · intro res
    simp [messagesCaseBlocks]
  · intro op r
    cases op <;> simp [svgCaseBlocks]
  · intro op r
    unfold segmentCaseBlocks
    by_cases h : r.masks.length = 0 <;> simp [h, List.length_append]
  · intro op r h
    unfold upscaleCaseBlocks
    rw [hper]
    exact List.length_pos.mpr h
  · intro op r h
    unfold imageCaseBlocks
    simp only [List.length_append]
    rcases h with ⟨t, ht, hne⟩ | h | h
    · rw [ht, htext t hne]
      omega
    · have := List.length_pos.mpr h
      rw [hper]
      omega
    · cases hu : r.usage with
      | none => exact absurd hu h
      | some u =>
        simp [usageBlocks, hu]
  · intro op r h
    unfold editCaseBlocks
    simp only [List.length_append]
    rcases h with ⟨t, ht, hne⟩ | h
    · rw [ht, htext t hne]
      omega
    · have := List.length_pos.mpr h
      rw [hper]
      omega

/-- C6 witness: the amended conditions at concrete results. -/
theorem c6_witness :
    1 ≤ (upscaleCaseBlocks none ⟨none, [⟨pngMime, "QQ==".toList⟩], none⟩).length ∧
    1 ≤ (imageCaseBlocks none ⟨none, [], some ⟨1, 2, 3⟩⟩).length ∧
    1 ≤ (editCaseBlocks none ⟨some "hi".toList, [], none⟩).length :=
  ⟨c6_reply_block_conditions.2.2.2.2.1 none _ (by simp),
   c6_reply_block_conditions.2.2.2.2.2.1 none _ (Or.inr (Or.inr (by simp))),
   c6_reply_block_conditions.2.2.2.2.2.2 none _
     (Or.inl ⟨"hi".toList, rfl, by decide⟩)⟩

/-- C7: for every tool case with a bounded numeric parameter — temperature
`[0,2]` and top-p `[0,1]` on the text tools, image count `[1,4]` on
`gemini_image`/`gemini_edit`, jpeg quality `[0,100]` on
`gemini_upscale`/`gemini_edit` — an out-of-range value makes schema
validation reject before any upstream request is built, and the rejection
surfaces as an error reply rather than a crash. -/
theorem c7_out_of_range_rejected :
    (∀ (a : RawGenArgs) (up : GenRequest → GeminiResponse) (t : ℚ),
      a.temperature = some t → ¬(0 ≤ t ∧ t ≤ 2) →
      (geminiGenerateCase a up).1 = none ∧
        (geminiGenerateCase a up).2.isError = true) ∧
    (∀ (a : RawGenArgs) (up : GenRequest → GeminiResponse) (t : ℚ),
      a.top_p = some t → ¬(0 ≤ t ∧ t ≤ 1) →
      (geminiGenerateCase a up).1 = none ∧
        (geminiGenerateCase a up).2.isError = true) ∧
    (∀ (a : RawMessagesArgs) (up : GenRequest → GeminiResponse) (t : ℚ),
      a.temperature = some t → ¬(0 ≤ t ∧ t ≤ 2) →
      (geminiMessagesCase a up).1 = none ∧
        (geminiMessagesCase a up).2.isError = true) ∧
    (∀ (a : RawMessagesArgs) (up : GenRequest → GeminiResponse) (t : ℚ),
      a.top_p = some t → ¬(0 ≤ t ∧ t ≤ 1) →
      (geminiMessagesCase a up).1 = none ∧
        (geminiMessagesCase a up).2.isError = true) ∧
    (∀ (a : RawImageArgs) (readF : Str → Str)
      (up : ImageGenRequest → GeminiResponse) (x : ℚ),
      a.num_images = some x → ¬(1 ≤ x ∧ x ≤ 4) →
      (geminiImageCase a readF up).1 = none ∧
        (geminiImageCase a readF up).2.isError = true) ∧
    (∀ (a : RawUpscaleArgs) (readF : Str → Str)
      (up : UpscaleRequest → GeneratedImagesResponse) (x : ℚ),
      a.jpeg_quality = some x → ¬(0 ≤ x ∧ x ≤ 100) →
      (geminiUpscaleCase a readF up).1 = none ∧
        (geminiUpscaleCase a readF up).2.isError = true) ∧
    (∀ (a : RawEditArgs) (readF : Str → Str)
      (up : EditRequest → GeneratedImagesResponse) (x : ℚ),
      a.jpeg_quality = some x → ¬(0 ≤ x ∧ x ≤ 100) →
      (geminiEditCase a readF up).1 = none ∧
        (geminiEditCase a readF up).2.isError = true) ∧
    (∀ (a : RawEditArgs) (readF : Str → Str)
      (up : EditRequest → GeneratedImagesResponse) (x : ℚ),
      a.num_images = some x → ¬(1 ≤ x ∧ x ≤ 4) →
      (geminiEditCase a readF up).1 = none ∧
        (geminiEditCase a readF up).2.isError = true) := by
  have hrange : ∀ (o : Option ℚ) (lo hi x : ℚ), o = some x → ¬(lo ≤ x ∧ x ≤ hi) →
      inRange o lo hi = false := by
    intro o lo hi x ho hx
    rcases not_and_or.mp hx with h | h <;>
      simp [inRange, ho, decide_eq_false h]
  refine ⟨?_, ?_, ?_, ?_, ?_, ?_, ?_, ?_⟩
  · intro a up t ht hr
    have hp : genParse a = none := by
      unfold genParse
      split
      · rfl
      · simp [hrange a.temperature 0 2 t ht hr]
    exact ⟨by simp [geminiGenerateCase, hp], by simp [geminiGenerateCase, hp, zodErrorReply]⟩
  · intro a up t ht hr
    have hp : genParse a = none := by
      unfold genParse
      split
      · rfl
      · simp [hrange a.top_p 0 1 t ht hr]
    exact ⟨by simp [geminiGenerateCase, hp], by simp [geminiGenerateCase, hp, zodErrorReply]⟩
  · intro a up t ht hr
    have hp : messagesParse a = none := by
      unfold messagesParse
      split
      · rfl
      · split
        · rfl
        · simp [hrange a.temperature 0 2 t ht hr]
    exact ⟨by simp [geminiMessagesCase, hp], by simp [geminiMessagesCase, hp, zodErrorReply]⟩
  · intro a up t ht hr
    have hp : messagesParse a = none := by
      unfold messagesParse
      split
      · rfl
      · split
        · rfl
        · simp [hrange a.top_p 0 1 t ht hr]
    exact ⟨by simp [geminiMessagesCase, hp], by simp [geminiMessagesCase, hp, zodErrorReply]⟩
  · intro a readF up x hx hr
    have hp : imageParse a = none := by
      unfold imageParse
      split
      · rfl
      · simp [hrange a.num_images 1 4 x hx hr]
    exact ⟨by simp [geminiImageCase, hp], by simp [geminiImageCase, hp, zodErrorReply]⟩
  · intro a readF up x hx hr
    have hp : upscaleParse a = none := by
      unfold upscaleParse
      split
      · rfl
      · simp [hrange a.jpeg_quality 0 100 x hx hr]
    exact ⟨by simp [geminiUpscaleCase, hp], by simp [geminiUpscaleCase, hp, zodErrorReply]⟩
  · intro a readF up x hx hr
    have hp : editParse a = none := by
      unfold editParse
      split
      · simp [hrange a.jpeg_quality 0 100 x hx hr]
      · rfl
    exact ⟨by simp [geminiEditCase, hp], by simp [geminiEditCase, hp, zodErrorReply]⟩
  · intro a readF up x hx hr
    have hp : editParse a = none := by
      unfold editParse
      split
      · simp [hrange a.num_images 1 4 x hx hr]
      · rfl
    exact ⟨by simp [geminiEditCase, hp], by simp [geminiEditCase, hp, zodErrorReply]⟩

/-- C7 witness: concrete out-of-range values — temperature `3`, image count
`5`, jpeg quality `101` — are rejected without an upstream call. -/
theorem c7_witness :
    (geminiGenerateCase ⟨some "p".toList, none, none, none, none, none, some 3, none⟩
        (fun _ => ⟨[], none, none⟩)).1 = none ∧
    (geminiImageCase ⟨some "p".toList, none, none, none, none, none, some 5, none, none⟩
        (fun _ => [])
        (fun _ => ⟨[], none, none⟩)).1 = none ∧
    (geminiUpscaleCase ⟨some "i.png".toList, none, none, some 101, none⟩
        (fun _ => []) (fun _ => ⟨none⟩)).2.isError = true :=
  ⟨(c7_out_of_range_rejected.1 _ _ 3 rfl (by norm_num)).1,
   (c7_out_of_range_rejected.2.2.2.2.1 _ _ _ 5 rfl (by norm_num)).1,
   (c7_out_of_range_rejected.2.2.2.2.2.1 _ _ _ 101 rfl (by norm_num)).2⟩

/-- C8: when the credential is absent the advertised tool set is exactly the
setup tool; invoking the setup tool returns the static instructional text;
invoking any other tool name throws a MethodNotFound protocol error, so no
capability tool is invokable. -/
theorem c8_unconfigured_gate :
    unconfiguredToolNames = ["gemini_setup".toList] ∧
    unconfiguredCall "gemini_setup".toList =
      .reply ⟨[.text setupInstructions], false⟩ ∧
    (∀ name : Str, name ≠ "gemini_setup".toList →
      unconfiguredCall name =
        .mcpError .methodNotFound ("Unknown tool: ".toList ++ name)) := by
  refine ⟨rfl, ?_, ?_⟩
  · unfold unconfiguredCall
    rw [if_pos rfl]
  · intro name h
    unfold unconfiguredCall
    rw [if_neg h]

/-- C8 witness: invoking the capability tool name `gemini_image` while
unconfigured yields the MethodNotFound error. -/
theorem c8_witness :
    unconfiguredCall "gemini_image".toList =
      .mcpError .methodNotFound ("Unknown tool: ".toList ++ "gemini_image".toList) :=
  c8_unconfigured_gate.2.2 "gemini_image".toList (by decide)

/-- C9 counterexample: with a system-role message `S` and the explicit (but
empty, hence JavaScript-falsy) instructions override `""`, the system
instruction sent upstream is `S`, not the supplied override. -/
theorem c9_counterexample :
    (callGeminiWithMessagesReq [⟨.system, "S".toList⟩]
        ⟨none, some [], none, none, none, none, none⟩).config.systemInstruction =
      some "S".toList ∧
    some "S".toList ≠ some ([] : Str) :=
  ⟨rfl, by decide⟩

/-- C9 (amended): when the message list contains a system-role message and
the instructions override is absent or empty (JavaScript-falsy), the first
system-role message's content is sent as the system instruction; a
non-empty override is used instead. -/
theorem c9_system_instruction (msgs : List SrcMessage) (o : GeminiOptions) :
    ((o.instructions = none ∨ o.instructions = some []) →
      ∀ m, msgs.find? (fun x => x.role = MsgRole.system) = some m →
      (callGeminiWithMessagesReq msgs o).config.systemInstruction = some m.content) ∧
    (∀ s : Str, o.instructions = some s → s ≠ [] →
      (callGeminiWithMessagesReq msgs o).config.systemInstruction = some s) := by
  constructor
  · intro hinst m hfind
    rcases hinst with h | h <;>
      simp [callGeminiWithMessagesReq, jsOrOpt, h, hfind]
  · intro s hs hne
    simp [callGeminiWithMessagesReq, jsOrOpt, hs, hne]

/-- C9 witness: a conversation with one system message and no override sends
that message's content as the instruction; a non-empty override wins. -/
theorem c9_witness :
    (callGeminiWithMessagesReq [⟨.system, "S".toList⟩]
        ⟨none, none, none, none, none, none, none⟩).config.systemInstruction =
      some "S".toList ∧
    (callGeminiWithMessagesReq [⟨.system, "S".toList⟩]
        ⟨none, some "O".toList, none, none, none, none, none⟩).config.systemInstruction =
      some "O".toList :=
  ⟨(c9_system_instruction [⟨.system, "S".toList⟩]
      ⟨none, none, none, none, none, none, none⟩).1 (Or.inl rfl)
      ⟨.system, "S".toList⟩ rfl,
   (c9_system_instruction [⟨.system, "S".toList⟩]
      ⟨none, some "O".toList, none, none, none, none, none⟩).2
      "O".toList rfl (by decide)⟩

/-- C10: the output-path rewrite strips a trailing dot-extension (a final `.`
followed by at least one non-dot character) before appending the
mime-derived extension, and appends directly when there is none; in
particular `out.png` with a jpeg asset is written as `out.jpg`. -/
theorem c10_output_path_rewrite :
    (∀ (a b mime : Str), b ≠ [] → '.' ∉ b →
      stripExt (a ++ '.' :: b) ++ extFor mime = a ++ extFor mime) ∧
    (∀ (p mime : Str), (∀ a b, p = a ++ '.' :: b → b = [] ∨ '.' ∈ b) →
      stripExt p ++ extFor mime = p ++ extFor mime) ∧
    outFileName "out.png".toList 1 0 "image/jpeg".toList = "out.jpg".toList := by
  refine ⟨?_, ?_, by decide⟩
  · intro a b mime hne hnd
    rw [stripExt_append a b hnd hne]
  · intro p mime h
    have hfix : stripExt p = p := by
      unfold stripExt
      cases hs : splitAtLastDot p with
      | none => rfl
      | some pr =>
        obtain ⟨x, y⟩ := pr
        obtain ⟨hp, hnd⟩ := splitAtLastDot_eq_some p x y hs
        rcases h x y hp with hy | hy
        · simp [hy]
        · exact absurd hy hnd
    rw [hfix]

/-- C10 witness: the rewrite at the concrete paths `out.png` and `out`. -/
theorem c10_witness :
    stripExt ("out".toList ++ '.' :: "png".toList) ++ extFor "image/jpeg".toList =
      "out".toList ++ extFor "image/jpeg".toList ∧
    stripExt "out".toList ++ extFor "image/png".toList =
      "out".toList ++ extFor "image/png".toList :=
  ⟨c10_output_path_rewrite.1 "out".toList "png".toList "image/jpeg".toList
      (by decide) (by decide),
   c10_output_path_rewrite.2.1 "out".toList "image/png".toList
      (by
        intro a b hab
        exfalso
        have hmem : '.' ∈ "out".toList := by
          rw [hab]
          exact List.mem_append_right a (List.mem_cons_self '.' b)
        revert hmem
        decide)⟩

end Gemcp
